import Mathlib

/-!
Verification of the OwnersUp transcript extraction and reconciliation
pipeline.  The data model and the user-facing operations are embedded from
the frontend sources (the shared type declarations, web/app/sessions/page.tsx
and web/lib/api.ts) and from the relational schema in
db/migrations/001_initial_schema.sql.  The backend pipeline components that
are absent from the repository snapshot (Entity Reconciler, Extraction
Orchestrator, Persistence Writer) are modelled from the specification; each
such definition says so in its doc comment.
-/

namespace OwnersUp

/-- Embeds the session_attendance_status enum of the SQL schema, which is also
the status union type of the AttendanceRecord interface. -/
inductive AttendanceStatus
  | present
  | absent_without_updates
  | travelling
  | family_time
  | work_business
  | wellness
  deriving DecidableEq

/-- Embeds the AttendanceRecord interface of the shared type declarations. -/
structure AttendanceRecord where
  extracted_name : String
  status : AttendanceStatus
  notes : Option String
  matched_member_id : Option Nat
  confidence_score : Nat
  needs_manual_review : Bool
  deriving DecidableEq

/-- Embeds the Goal interface of the shared type declarations. -/
structure Goal where
  name : String
  quantifiable_goal : String
  is_vague : Bool
  deriving DecidableEq

/-- Embeds the ChallengeStrategy interface. -/
structure ChallengeStrategy where
  name : Option String
  summary : String
  tag : String
  deriving DecidableEq

/-- Embeds the Challenge interface. -/
structure Challenge where
  challenge : String
  category : String
  strategies : List ChallengeStrategy
  deriving DecidableEq

/-- Embeds the IndividualChallenges interface. -/
structure IndividualChallenges where
  name : String
  challenges : List Challenge
  deriving DecidableEq

/-- Embeds the MarketingOutcome interface. -/
structure MarketingOutcome where
  no_of_meetings : Nat
  no_of_proposals : Nat
  no_of_clients : Nat
  notes : String
  deriving DecidableEq

/-- Embeds the MarketingActivity interface (the quanitity field keeps the
spelling of the source). -/
structure MarketingActivity where
  stage : String
  activity : String
  quanitity : Nat
  outcome : MarketingOutcome
  is_win : Bool
  contract_type : Option String
  revenue : Option Nat
  client_involved : Bool
  deriving DecidableEq

/-- Embeds the IndividualMarketingActivities interface. -/
structure IndividualMarketingActivities where
  name : Option String
  activities : List MarketingActivity
  deriving DecidableEq

/-- Embeds the StuckDetection interface. -/
structure StuckDetection where
  name : String
  classification : String
  stuck_summary : String
  exact_quotes : List String
  potential_next_step : String
  deriving DecidableEq

/-- Embeds the representative_quotes element type of the SessionSentiment
interface. -/
structure RepresentativeQuote where
  name : String
  emotion : List String
  exact_quotes : List String
  is_negative : Bool
  deriving DecidableEq

/-- Embeds the SessionSentiment interface. -/
structure SessionSentiment where
  sentiment_score : Nat
  rationale : String
  dominant_emotion : String
  representative_quotes : List RepresentativeQuote
  confidence_score : Nat
  deriving DecidableEq

/-- Embeds the wrapper object of the goals field of ExtractionResults. -/
structure GoalsResult where
  goals : List Goal
  deriving DecidableEq

/-- Embeds the wrapper object of the challenges field of ExtractionResults. -/
structure ChallengesResult where
  challenges : List IndividualChallenges
  deriving DecidableEq

/-- Embeds the wrapper object of the marketing_activities field of
ExtractionResults. -/
structure MarketingResult where
  activities : List IndividualMarketingActivities
  deriving DecidableEq

/-- Embeds the wrapper object of the stuck_detections field of
ExtractionResults. -/
structure StuckResult where
  detections : List StuckDetection
  deriving DecidableEq

/-- Embeds the ExtractionResults interface: the six category slots of a draft.
The record type always carries all six fields and carries no per-category
ok/failed flag. -/
structure ExtractionResults where
  goals : GoalsResult
  challenges : ChallengesResult
  marketing_activities : MarketingResult
  stuck_detections : StuckResult
  sentiment : SessionSentiment
  attendance : List AttendanceRecord
  deriving DecidableEq

/-- Embeds the Session interface of the shared type declarations. -/
structure Session where
  id : Nat
  group_id : Nat
  session_number : Nat
  session_date : String
  notes : Option String
  transcript : Option String
  created_at : Option String
  updated_at : Option String
  deriving DecidableEq

/-- Embeds the body of updateAttendanceMatch in web/app/sessions/page.tsx: copy
the attendance array and overwrite entry index with a record keeping every
field except matched_member_id (set to the chosen member) and
needs_manual_review (set to false).  An out-of-range index leaves the list
unchanged; the page only calls it with indices produced by rendering the
list. -/
def setAttendanceMatch (attendance : List AttendanceRecord) (index memberId : Nat) :
    List AttendanceRecord :=
  match attendance.get? index with
  | some r =>
      attendance.set index
        { r with matched_member_id := some memberId, needs_manual_review := false }
  | none => attendance

/-- Embeds updateAttendanceMatch acting on the extraction-results state: the
attendance field is replaced, every other category field is kept. -/
def updateAttendanceMatch (er : ExtractionResults) (index memberId : Nat) :
    ExtractionResults :=
  { er with attendance := setAttendanceMatch er.attendance index memberId }

/-- Embeds the surrounding early-return guard of updateAttendanceMatch: when no
extraction results are loaded the handler does nothing. -/
def updateAttendanceMatchState (st : Option ExtractionResults) (index memberId : Nat) :
    Option ExtractionResults :=
  match st with
  | none => none
  | some er => some (updateAttendanceMatch er index memberId)

/-- Embeds handleSaveExtractions in web/app/sessions/page.tsx: it returns early
when either the current session or the extraction results are missing, and
otherwise unconditionally issues the save request
sessionsAPI.saveExtractions(currentSession.id, extractionResults).  The value
returned here is the issued request, none when no request is issued. -/
def handleSaveExtractions (currentSession : Option Session)
    (extractionResults : Option ExtractionResults) :
    Option (Nat × ExtractionResults) :=
  match currentSession, extractionResults with
  | some s, some er => some (s.id, er)
  | some _, none => none
  | none, _ => none

/-- Modelled from the spec: the high_confidence_threshold of the Entity
Reconciler, on the 0..100 integer confidence scale the UI displays. -/
def high_confidence_threshold : Nat := 85

/-- Modelled from the spec: the review_threshold of the Entity Reconciler, on
the 0..100 integer confidence scale. -/
def review_threshold : Nat := 50

/-- Modelled from the spec: one entry of the RosterIndex, a member_id and name
pair. -/
structure RosterEntry where
  member_id : Nat
  name : String
  deriving DecidableEq

/-- Modelled from the spec: scan of the roster in insertion order keeping the
current best candidate; a later entry replaces it only on a strictly greater
score, so ties are broken by roster insertion order. -/
def bestMatchAux (score : String → String → Nat) (raw : String)
    (acc : RosterEntry × Nat) : List RosterEntry → RosterEntry × Nat
  | [] => acc
  | e :: rest =>
      if acc.2 < score raw e.name then bestMatchAux score raw (e, score raw e.name) rest
      else bestMatchAux score raw acc rest

/-- Modelled from the spec: the highest-scoring roster candidate for a raw
extracted name, none when the roster is empty.  The similarity measure is the
caller-supplied score function (the spec leaves the concrete string-similarity
measure open). -/
def bestMatch (score : String → String → Nat) (raw : String) :
    List RosterEntry → Option (RosterEntry × Nat)
  | [] => none
  | e :: rest => some (bestMatchAux score raw (e, score raw e.name) rest)

/-- Modelled from the spec: two candidates tie within a small margin when at
least two roster entries score within margin of the best score. -/
def tiedWithinMargin (score : String → String → Nat) (margin : Nat) (raw : String)
    (roster : List RosterEntry) (best : Nat) : Bool :=
  2 ≤ (roster.filter (fun e => decide (best ≤ score raw e.name + margin))).length

/-- Modelled from the spec: the resolution policy of the Entity Reconciler for
one raw name, returning the member_id, confidence and needs_review triple.
Empty roster: null member, review.  Best below review_threshold: null member,
review.  Best at or above high_confidence_threshold and uniquely highest (no
second candidate within the tie margin): auto-resolve without review.
Otherwise: resolve to the best candidate but flag for review. -/
def resolveName (score : String → String → Nat) (margin : Nat)
    (roster : List RosterEntry) (raw : String) : Option Nat × Nat × Bool :=
  match bestMatch score raw roster with
  | none => (none, 0, true)
  | some (e, s) =>
      if s < review_threshold then (none, s, true)
      else if decide (high_confidence_threshold ≤ s)
              && !(tiedWithinMargin score margin raw roster s) then
        (some e.member_id, s, false)
      else (some e.member_id, s, true)

/-- Modelled from the spec: the Entity Reconciler applied to one attendance
record, the carrier of reconciliation state (matched_member_id,
confidence_score, needs_manual_review) in the source data model. -/
def resolveAttRecord (score : String → String → Nat) (margin : Nat)
    (roster : List RosterEntry) (r : AttendanceRecord) : AttendanceRecord :=
  { r with
    matched_member_id := (resolveName score margin roster r.extracted_name).1
    confidence_score := (resolveName score margin roster r.extracted_name).2.1
    needs_manual_review := (resolveName score margin roster r.extracted_name).2.2 }

/-- Modelled from the spec: the Entity Reconciler over a whole draft, resolving
every extracted name reference that carries resolution state. -/
def resolveDraft (score : String → String → Nat) (margin : Nat)
    (roster : List RosterEntry) (er : ExtractionResults) : ExtractionResults :=
  { er with attendance := er.attendance.map (resolveAttRecord score margin roster) }

/-- Modelled from the spec: ready() of the Review Session, true iff no
reference with needs_review remains. -/
def ready (er : ExtractionResults) : Bool :=
  er.attendance.all (fun r => !r.needs_manual_review)

theorem bestMatchAux_spec (score : String → String → Nat) (raw : String) :
    ∀ (l : List RosterEntry) (acc : RosterEntry × Nat),
      acc.2 = score raw acc.1.name →
      (bestMatchAux score raw acc l).2 = score raw (bestMatchAux score raw acc l).1.name ∧
      ((bestMatchAux score raw acc l).1 = acc.1 ∨ (bestMatchAux score raw acc l).1 ∈ l) ∧
      acc.2 ≤ (bestMatchAux score raw acc l).2 ∧
      (∀ x ∈ l, score raw x.name ≤ (bestMatchAux score raw acc l).2)
  | [], acc, hacc => by
      simp [bestMatchAux, hacc]
  | e :: rest, acc, hacc => by
      by_cases h : acc.2 < score raw e.name
      · have ih := bestMatchAux_spec score raw rest (e, score raw e.name) rfl
        simp only [bestMatchAux, if_pos h]
        refine ⟨ih.1, ?_, ?_, ?_⟩
        · rcases ih.2.1 with h1 | h1
          · exact Or.inr (by simp [h1])
          · exact Or.inr (List.mem_cons_of_mem _ h1)
        · exact le_trans (le_of_lt h) ih.2.2.1
        · intro x hx
          rcases List.mem_cons.mp hx with rfl | hx
          · exact ih.2.2.1
          · exact ih.2.2.2 x hx
      · have ih := bestMatchAux_spec score raw rest acc hacc
        simp only [bestMatchAux, if_neg h]
        refine ⟨ih.1, ?_, ih.2.2.1, ?_⟩
        · rcases ih.2.1 with h1 | h1
          · exact Or.inl h1
          · exact Or.inr (List.mem_cons_of_mem _ h1)
        · intro x hx
          rcases List.mem_cons.mp hx with rfl | hx
          · exact le_trans (Nat.le_of_not_lt h) ih.2.2.1
          · exact ih.2.2.2 x hx

theorem bestMatch_spec (score : String → String → Nat) (raw : String)
    (roster : List RosterEntry) (e : RosterEntry) (s : Nat)
    (h : bestMatch score raw roster = some (e, s)) :
    e ∈ roster ∧ s = score raw e.name ∧ ∀ x ∈ roster, score raw x.name ≤ s := by
  cases roster with
  | nil => simp [bestMatch] at h
  | cons a rest =>
      have hs := bestMatchAux_spec score raw rest (a, score raw a.name) rfl
      simp only [bestMatch, Option.some.injEq] at h
      rw [h] at hs
      refine ⟨?_, hs.1, ?_⟩
      · rcases hs.2.1 with h1 | h1
        · have h2 : e = a := h1
          exact h2 ▸ List.mem_cons_self a rest
        · exact List.mem_cons_of_mem _ h1
      · intro x hx
        rcases List.mem_cons.mp hx with rfl | hx
        · exact hs.2.2.1
        · exact hs.2.2.2 x hx

/-- Claim C3: after the Reconciler runs, a reference whose best similarity
score against a non-empty roster is at least high_confidence_threshold and is
uniquely highest (no second candidate within the tie margin) is auto-resolved
to that member with needs_review false; the resolved member belongs to the
roster, realises the best score, and no roster member scores higher. -/
theorem high_confidence_unique_match_auto_resolved
    (score : String → String → Nat) (margin : Nat) (roster : List RosterEntry)
    (r : AttendanceRecord) (e : RosterEntry) (s : Nat)
    (hbest : bestMatch score r.extracted_name roster = some (e, s))
    (hhigh : high_confidence_threshold ≤ s)
    (huniq : tiedWithinMargin score margin r.extracted_name roster s = false) :
    (resolveAttRecord score margin roster r).matched_member_id = some e.member_id ∧
    (resolveAttRecord score margin roster r).needs_manual_review = false ∧
    e ∈ roster ∧ s = score r.extracted_name e.name ∧
    ∀ x ∈ roster, score r.extracted_name x.name ≤ s := by
  obtain ⟨hmem, hsc, hmax⟩ := bestMatch_spec score r.extracted_name roster e s hbest
  have hnotlt : ¬ s < review_threshold := by
    simp only [high_confidence_threshold] at hhigh
    simp only [review_threshold]
    omega
  have hcond : (decide (high_confidence_threshold ≤ s)
      && !(tiedWithinMargin score margin r.extracted_name roster s)) = true := by
    simp [hhigh, huniq]
  have h1 : resolveName score margin roster r.extracted_name = (some e.member_id, s, false) := by
    rw [resolveName, hbest]
    simp [hnotlt, hcond]
  exact ⟨by simp [resolveAttRecord, h1], by simp [resolveAttRecord, h1], hmem, hsc, hmax⟩

/-- A simple concrete similarity measure used in witnesses: 100 on exact
match, 0 otherwise. -/
def exactScore (a b : String) : Nat := if a = b then 100 else 0

/-- A concrete two-member roster used in witnesses. -/
def rosterAnnBob : List RosterEntry := [⟨1, "ann"⟩, ⟨2, "bob"⟩]

/-- A concrete unreconciled attendance record whose extracted name matches the
first roster member exactly. -/
def recAnn : AttendanceRecord :=
  { extracted_name := "ann", status := .present, notes := none,
    matched_member_id := none, confidence_score := 0, needs_manual_review := true }

/-- Witness for claim C3 at a concrete roster and record. -/
theorem high_confidence_unique_match_auto_resolved_witness :
    bestMatch exactScore "ann" rosterAnnBob = some (⟨1, "ann"⟩, 100) ∧
    high_confidence_threshold ≤ 100 ∧
    tiedWithinMargin exactScore 5 "ann" rosterAnnBob 100 = false ∧
    (resolveAttRecord exactScore 5 rosterAnnBob recAnn).matched_member_id = some 1 ∧
    (resolveAttRecord exactScore 5 rosterAnnBob recAnn).needs_manual_review = false :=
  ⟨by decide, by decide, by decide,
    (high_confidence_unique_match_auto_resolved exactScore 5 rosterAnnBob recAnn ⟨1, "ann"⟩ 100
      (by decide) (by decide) (by decide)).1,
    (high_confidence_unique_match_auto_resolved exactScore 5 rosterAnnBob recAnn ⟨1, "ann"⟩ 100
      (by decide) (by decide) (by decide)).2.1⟩

/-- Claim C4: after the Reconciler runs, a reference with no roster candidate
(empty roster, or every candidate scoring below review_threshold) is left with
a null member_id and needs_review true. -/
theorem no_candidate_left_unmatched
    (score : String → String → Nat) (margin : Nat) (roster : List RosterEntry)
    (r : AttendanceRecord)
    (h : roster = [] ∨ ∀ x ∈ roster, score r.extracted_name x.name < review_threshold) :
    (resolveAttRecord score margin roster r).matched_member_id = none ∧
    (resolveAttRecord score margin roster r).needs_manual_review = true := by
  cases hbm : bestMatch score r.extracted_name roster with
  | none =>
      have h1 : resolveName score margin roster r.extracted_name = (none, 0, true) := by
        rw [resolveName, hbm]
      exact ⟨by simp [resolveAttRecord, h1], by simp [resolveAttRecord, h1]⟩
  | some p =>
      obtain ⟨e, s⟩ := p
      obtain ⟨hmem, hsc, hmax⟩ := bestMatch_spec score r.extracted_name roster e s hbm
      have hlow : s < review_threshold := by
        rcases h with h | h
        · subst h
          simp at hmem
        · rw [hsc]
          exact h e hmem
      have h1 : resolveName score margin roster r.extracted_name = (none, s, true) := by
        rw [resolveName, hbm]
        simp [hlow]
      exact ⟨by simp [resolveAttRecord, h1], by simp [resolveAttRecord, h1]⟩

/-- A concrete attendance record whose extracted name matches nobody on the
roster. -/
def recZzz : AttendanceRecord :=
  { extracted_name := "zzz", status := .present, notes := none,
    matched_member_id := none, confidence_score := 0, needs_manual_review := false }

/-- Witness for claim C4 at a concrete roster and record. -/
theorem no_candidate_left_unmatched_witness :
    (∀ x ∈ [(⟨1, "ann"⟩ : RosterEntry)], exactScore "zzz" x.name < review_threshold) ∧
    (resolveAttRecord exactScore 5 [⟨1, "ann"⟩] recZzz).matched_member_id = none ∧
    (resolveAttRecord exactScore 5 [⟨1, "ann"⟩] recZzz).needs_manual_review = true :=
  ⟨by decide,
    (no_candidate_left_unmatched exactScore 5 [⟨1, "ann"⟩] recZzz (Or.inr (by decide))).1,
    (no_candidate_left_unmatched exactScore 5 [⟨1, "ann"⟩] recZzz (Or.inr (by decide))).2⟩

theorem resolveAttRecord_idem (score : String → String → Nat) (margin : Nat)
    (roster : List RosterEntry) (r : AttendanceRecord) :
    resolveAttRecord score margin roster (resolveAttRecord score margin roster r) =
      resolveAttRecord score margin roster r := by
  cases r
  rfl

/-- Claim C8: the Reconciler is idempotent; resolving a draft twice with the
same roster and similarity measure yields exactly the same resolutions as
resolving it once. -/
theorem reconciler_idempotent (score : String → String → Nat) (margin : Nat)
    (roster : List RosterEntry) (er : ExtractionResults) :
    resolveDraft score margin roster (resolveDraft score margin roster er) =
      resolveDraft score margin roster er := by
  cases er with
  | mk g c m s sent att =>
      simp only [resolveDraft, List.map_map]
      congr 1

/-- The member clause of the spec invariant on one reference: needs_review
false requires a non-null member_id. -/
def resolvedHasMember (r : AttendanceRecord) : Bool :=
  r.needs_manual_review || r.matched_member_id.isSome

/-- The spec invariant on one reference at the record level: the member clause
together with the confidence clause (confidence below review_threshold
requires needs_review). -/
def refInvariant (r : AttendanceRecord) : Bool :=
  resolvedHasMember r &&
  (!(decide (r.confidence_score < review_threshold)) || r.needs_manual_review)

/-- A concrete low-confidence attendance record still flagged for review. -/
def recLowConf : AttendanceRecord :=
  { extracted_name := "jo", status := .present, notes := none,
    matched_member_id := none, confidence_score := 40, needs_manual_review := true }

/-- Counterexample for claim C5: the manual-correction operation of the source
does not keep the invariant; correcting the low-confidence record clears
needs_manual_review while its confidence_score stays below review_threshold,
so the corrected list no longer satisfies the invariant. -/
theorem invariant_broken_by_manual_correction :
    refInvariant recLowConf = true ∧
    (setAttendanceMatch [recLowConf] 0 7).all refInvariant = false := by decide

/-- Claim C5 (amended): reconciliation establishes the full invariant on every
reference, a reference with no candidate is flagged for review, and manual
correction preserves the member clause (needs_review false implies a non-null
member_id); the confidence clause is not preserved by manual correction. -/
theorem invariant_after_reconciliation_and_correction
    (score : String → String → Nat) (margin : Nat) (roster : List RosterEntry)
    (r : AttendanceRecord) (l : List AttendanceRecord) (i m : Nat) :
    refInvariant (resolveAttRecord score margin roster r) = true ∧
    (bestMatch score r.extracted_name roster = none →
      (resolveAttRecord score margin roster r).needs_manual_review = true) ∧
    ((∀ x ∈ l, resolvedHasMember x = true) →
      ∀ x ∈ setAttendanceMatch l i m, resolvedHasMember x = true) := by
  refine ⟨?_, ?_, ?_⟩
  · cases hbm : bestMatch score r.extracted_name roster with
    | none =>
        have h1 : resolveName score margin roster r.extracted_name = (none, 0, true) := by
          rw [resolveName, hbm]
        simp [refInvariant, resolvedHasMember, resolveAttRecord, h1]
    | some p =>
        obtain ⟨e, s⟩ := p
        by_cases hlt : s < review_threshold
        · have h1 : resolveName score margin roster r.extracted_name = (none, s, true) := by
            rw [resolveName, hbm]
            simp [hlt]
          simp [refInvariant, resolvedHasMember, resolveAttRecord, h1]
        · by_cases hc : (decide (high_confidence_threshold ≤ s)
              && !(tiedWithinMargin score margin r.extracted_name roster s)) = true
          · have h1 : resolveName score margin roster r.extracted_name =
                (some e.member_id, s, false) := by
              rw [resolveName, hbm]
              simp [hlt, hc]
            simp [refInvariant, resolvedHasMember, resolveAttRecord, h1, hlt]
          · have h1 : resolveName score margin roster r.extracted_name =
                (some e.member_id, s, true) := by
              rw [resolveName, hbm]
              simp [hlt, hc]
            simp [refInvariant, resolvedHasMember, resolveAttRecord, h1]
  · intro hbm
    have h1 : resolveName score margin roster r.extracted_name = (none, 0, true) := by
      rw [resolveName, hbm]
    simp [resolveAttRecord, h1]
  · intro hl x hx
    rw [setAttendanceMatch] at hx
    rcases hget : l.get? i with _ | r0
    · rw [hget] at hx
      exact hl x hx
    · rw [hget] at hx
      rcases List.mem_or_eq_of_mem_set hx with hx | hx
      · exact hl x hx
      · subst hx
        simp [resolvedHasMember]

/-- Witness for claim C5 (amended) at concrete inputs. -/
theorem invariant_after_reconciliation_and_correction_witness :
    refInvariant (resolveAttRecord exactScore 5 rosterAnnBob recLowConf) = true ∧
    (∀ x ∈ [recAnn], resolvedHasMember x = true) ∧
    (∀ x ∈ setAttendanceMatch [recAnn] 0 7, resolvedHasMember x = true) :=
  ⟨(invariant_after_reconciliation_and_correction exactScore 5 rosterAnnBob
      recLowConf [recAnn] 0 7).1,
   by decide,
   (invariant_after_reconciliation_and_correction exactScore 5 rosterAnnBob
      recLowConf [recAnn] 0 7).2.2 (by decide)⟩

/-- A concrete empty sentiment value. -/
def emptySentiment : SessionSentiment :=
  { sentiment_score := 0, rationale := "", dominant_emotion := "",
    representative_quotes := [], confidence_score := 0 }

/-- A concrete draft holding one unresolved low-confidence attendance
record. -/
def erUnready : ExtractionResults :=
  { goals := ⟨[]⟩, challenges := ⟨[]⟩, marketing_activities := ⟨[]⟩,
    stuck_detections := ⟨[]⟩, sentiment := emptySentiment,
    attendance := [recLowConf] }

/-- Counterexample for claim C6: the manual correction of the source sets the
member and clears the review flag but leaves confidence_score unchanged; the
corrected record keeps confidence 40, not 100. -/
theorem correction_does_not_set_confidence_100 :
    ((updateAttendanceMatch erUnready 0 7).attendance.map
        (fun r => r.confidence_score)) = [40] ∧
    ((updateAttendanceMatch erUnready 0 7).attendance.map
        (fun r => r.confidence_score)) ≠ [100] := by decide

theorem setAttendanceMatch_get_self (l : List AttendanceRecord) (i m : Nat)
    (r : AttendanceRecord) (h : l.get? i = some r) :
    (setAttendanceMatch l i m).get? i =
      some { r with matched_member_id := some m, needs_manual_review := false } := by
  have hlt : i < l.length := by
    by_contra hge
    rw [List.get?_eq_none.mpr (Nat.le_of_not_lt hge)] at h
    exact Option.noConfusion h
  simp only [setAttendanceMatch]
  rw [h]
  exact List.get?_set_eq_of_lt _ hlt

/-- Claim C6 (amended): for a reference present at index i, the manual
correction sets its matched_member_id to the chosen member and
needs_manual_review to false, leaving every other field (confidence_score
included) unchanged; confidence is not set to 100. -/
theorem updateAttendanceMatch_sets_member_and_clears_review
    (er : ExtractionResults) (i m : Nat) (r : AttendanceRecord)
    (h : er.attendance.get? i = some r) :
    (updateAttendanceMatch er i m).attendance.get? i =
      some { r with matched_member_id := some m, needs_manual_review := false } :=
  setAttendanceMatch_get_self er.attendance i m r h

/-- Witness for claim C6 (amended) at a concrete draft. -/
theorem updateAttendanceMatch_sets_member_and_clears_review_witness :
    erUnready.attendance.get? 0 = some recLowConf ∧
    (updateAttendanceMatch erUnready 0 7).attendance.get? 0 =
      some { recLowConf with matched_member_id := some 7, needs_manual_review := false } :=
  ⟨by decide,
   updateAttendanceMatch_sets_member_and_clears_review erUnready 0 7 recLowConf (by decide)⟩

/-- Claim C10: frame property of the attendance correction: it changes only
the matched_member_id and needs_manual_review fields of record i; the other
five categories, the list length, the remaining fields of record i and every
other record are unchanged. -/
theorem updateAttendanceMatch_frame
    (er : ExtractionResults) (i m : Nat) (r : AttendanceRecord)
    (h : er.attendance.get? i = some r) :
    (updateAttendanceMatch er i m).goals = er.goals ∧
    (updateAttendanceMatch er i m).challenges = er.challenges ∧
    (updateAttendanceMatch er i m).marketing_activities = er.marketing_activities ∧
    (updateAttendanceMatch er i m).stuck_detections = er.stuck_detections ∧
    (updateAttendanceMatch er i m).sentiment = er.sentiment ∧
    (updateAttendanceMatch er i m).attendance.length = er.attendance.length ∧
    (updateAttendanceMatch er i m).attendance.get? i =
      some { r with matched_member_id := some m, needs_manual_review := false } ∧
    (∀ j, j ≠ i → (updateAttendanceMatch er i m).attendance.get? j =
      er.attendance.get? j) := by
  refine ⟨rfl, rfl, rfl, rfl, rfl, ?_, ?_, ?_⟩
  · simp only [updateAttendanceMatch, setAttendanceMatch]
    rw [h]
    simp
  · exact setAttendanceMatch_get_self er.attendance i m r h
  · intro j hj
    simp only [updateAttendanceMatch, setAttendanceMatch]
    rw [h]
    exact List.get?_set_ne _ _ (fun he => hj he.symm)

/-- Witness for claim C10 at a concrete draft. -/
theorem updateAttendanceMatch_frame_witness :
    erUnready.attendance.get? 0 = some recLowConf ∧
    (updateAttendanceMatch erUnready 0 7).sentiment = erUnready.sentiment ∧
    (∀ j, j ≠ 0 → (updateAttendanceMatch erUnready 0 7).attendance.get? j =
      erUnready.attendance.get? j) :=
  ⟨by decide,
   (updateAttendanceMatch_frame erUnready 0 7 recLowConf (by decide)).2.2.2.2.1,
   (updateAttendanceMatch_frame erUnready 0 7 recLowConf (by decide)).2.2.2.2.2.2.2⟩

/-- A concrete session record. -/
def sessionEx : Session :=
  { id := 1, group_id := 1, session_number := 1, session_date := "2024-01-01",
    notes := none, transcript := none, created_at := none, updated_at := none }

/-- Counterexample for claim C1: with an unresolved reference remaining
(ready is false), the Save All handler still issues the save request; the
source performs no readiness check and nothing fails with a NotReady
condition. -/
theorem save_issued_despite_unresolved_reference :
    ready erUnready = false ∧
    handleSaveExtractions (some sessionEx) (some erUnready) = some (1, erUnready) := by
  decide

/-- Claim C1 (amended): the Save All handler issues the save request exactly
when a current session and extraction results are present; it performs no
readiness check, so unresolved references never block the request, and when
either input is missing it does nothing. -/
theorem handleSaveExtractions_unconditional (s : Session) (er : ExtractionResults) :
    handleSaveExtractions (some s) (some er) = some (s.id, er) ∧
    handleSaveExtractions none (some er) = none ∧
    handleSaveExtractions (some s) none = none ∧
    handleSaveExtractions none none = none :=
  ⟨rfl, rfl, rfl, rfl⟩

/-- Modelled from the spec: the Extraction Orchestrator collects the six
extractor outcomes (none marks a failed extractor) and assembles the draft.
The source result shape, the ExtractionResults interface, has no per-category
ok/failed flag, so a failed extractor's slot can only be filled with the
category's empty value. -/
def assembleResults (g : Option GoalsResult) (c : Option ChallengesResult)
    (m : Option MarketingResult) (s : Option StuckResult)
    (sent : Option SessionSentiment) (a : Option (List AttendanceRecord)) :
    ExtractionResults :=
  { goals := g.getD ⟨[]⟩,
    challenges := c.getD ⟨[]⟩,
    marketing_activities := m.getD ⟨[]⟩,
    stuck_detections := s.getD ⟨[]⟩,
    sentiment := sent.getD emptySentiment,
    attendance := a.getD [] }

/-- A concrete non-empty challenges category. -/
def challengesEx : ChallengesResult :=
  ⟨[{ name := "ann",
      challenges := [{ challenge := "pipeline", category := "growth", strategies := [] }] }]⟩

/-- Counterexample for claim C7: a run where the goals extractor failed
assembles to exactly the same draft as a run where the goals extractor
succeeded with an empty result; the result shape carries no explicit
ok-or-failed flag, so a failed category is not marked failed, only empty. -/
theorem failed_category_indistinguishable_from_empty :
    assembleResults none (some challengesEx) (some ⟨[]⟩) (some ⟨[]⟩)
        (some emptySentiment) (some [recAnn]) =
      assembleResults (some ⟨[]⟩) (some challengesEx) (some ⟨[]⟩) (some ⟨[]⟩)
        (some emptySentiment) (some [recAnn]) := rfl

/-- Claim C7 (amended): the assembled draft always carries all six category
slots: each slot holds its extractor's result when that extractor succeeded
and the category's empty value when it failed.  In particular, when exactly
one extractor fails the other five categories hold their results and the
failed slot is still present (as an empty value); but there is no explicit
per-category ok/failed flag in the result shape, so a failed category is
empty rather than marked failed. -/
theorem assembleResults_keeps_slots
    (g : Option GoalsResult) (c : Option ChallengesResult) (m : Option MarketingResult)
    (s : Option StuckResult) (sent : Option SessionSentiment)
    (a : Option (List AttendanceRecord)) :
    (assembleResults g c m s sent a).goals = g.getD ⟨[]⟩ ∧
    (assembleResults g c m s sent a).challenges = c.getD ⟨[]⟩ ∧
    (assembleResults g c m s sent a).marketing_activities = m.getD ⟨[]⟩ ∧
    (assembleResults g c m s sent a).stuck_detections = s.getD ⟨[]⟩ ∧
    (assembleResults g c m s sent a).sentiment = sent.getD emptySentiment ∧
    (assembleResults g c m s sent a).attendance = a.getD [] :=
  ⟨rfl, rfl, rfl, rfl, rfl, rfl⟩

/-- One row of the session_attendance table of the SQL schema; member_id is an
Option so that the NOT NULL column constraint is a checked condition rather
than a typing assumption. -/
structure AttendanceRow where
  session_id : Nat
  member_id : Option Nat
  status : AttendanceStatus
  notes : Option String
  deriving DecidableEq

/-- Two rows conflict when they agree on the UNIQUE(session_id, member_id)
key of session_attendance. -/
def rowConflict (a b : AttendanceRow) : Bool :=
  decide (a.session_id = b.session_id) && decide (a.member_id = b.member_id)

/-- Insert enforcing the session_attendance constraints of the SQL schema:
member_id NOT NULL and UNIQUE(session_id, member_id); a violating insert
fails. -/
def insertAttendanceRow (store : List AttendanceRow) (r : AttendanceRow) :
    Option (List AttendanceRow) :=
  if r.member_id = none then none
  else if store.any (fun x => rowConflict x r) then none
  else some (store ++ [r])

def insertAttendanceRows (store : List AttendanceRow) :
    List AttendanceRow → Option (List AttendanceRow)
  | [] => some store
  | r :: rs =>
      match insertAttendanceRow store r with
      | none => none
      | some s2 => insertAttendanceRows s2 rs

/-- Modelled from the spec: the Persistence Writer emits one attendance row
per resolved AttendanceRecord, skipping records without a resolved member. -/
def attendanceRows (sid : Nat) (records : List AttendanceRecord) : List AttendanceRow :=
  records.filterMap (fun rec =>
    match rec.matched_member_id with
    | some m => some ⟨sid, some m, rec.status, rec.notes⟩
    | none => none)

/-- Modelled from the spec: the attendance part of a commit for one session. -/
def writeAttendance (store : List AttendanceRow) (sid : Nat)
    (records : List AttendanceRecord) : Option (List AttendanceRow) :=
  insertAttendanceRows store (attendanceRows sid records)

/-- No two rows of the store share the UNIQUE(session_id, member_id) key. -/
def uniqKeys (store : List AttendanceRow) : Prop :=
  store.Pairwise (fun a b => rowConflict a b = false)

theorem insertAttendanceRow_spec (store : List AttendanceRow) (r : AttendanceRow)
    (s2 : List AttendanceRow) (h : insertAttendanceRow store r = some s2) :
    s2 = store ++ [r] ∧ r.member_id ≠ none ∧ ∀ x ∈ store, rowConflict x r = false := by
  by_cases h1 : r.member_id = none
  · simp [insertAttendanceRow, h1] at h
  · by_cases h2 : store.any (fun x => rowConflict x r) = true
    · simp [insertAttendanceRow, h1, h2] at h
    · have h3 : ∀ x ∈ store, rowConflict x r = false := by
        intro x hx
        by_contra hcon
        exact h2 (List.any_eq_true.mpr ⟨x, hx, by
          cases hc : rowConflict x r with
          | false => exact absurd hc hcon
          | true => rfl⟩)
      refine ⟨?_, h1, h3⟩
      simp [insertAttendanceRow, h1, h2] at h
      exact h.symm

theorem insertAttendanceRows_mem (rows : List AttendanceRow) :
    ∀ (store s2 : List AttendanceRow),
      insertAttendanceRows store rows = some s2 →
      ∀ x ∈ s2, x ∈ store ∨ x ∈ rows := by
  induction rows with
  | nil =>
      intro store s2 h x hx
      simp only [insertAttendanceRows, Option.some.injEq] at h
      exact Or.inl (h ▸ hx)
  | cons r rs ih =>
      intro store s2 h x hx
      simp only [insertAttendanceRows] at h
      cases hins : insertAttendanceRow store r with
      | none => rw [hins] at h; exact Option.noConfusion h
      | some st1 =>
          rw [hins] at h
          obtain ⟨heq, _, _⟩ := insertAttendanceRow_spec store r st1 hins
          rcases ih st1 s2 h x hx with hx1 | hx1
          · rw [heq] at hx1
            rcases List.mem_append.mp hx1 with hx2 | hx2
            · exact Or.inl hx2
            · exact Or.inr (by simp at hx2; simp [hx2])
          · exact Or.inr (List.mem_cons_of_mem _ hx1)

theorem insertAttendanceRows_uniq (rows : List AttendanceRow) :
    ∀ (store s2 : List AttendanceRow),
      insertAttendanceRows store rows = some s2 →
      uniqKeys store → uniqKeys s2 := by
  induction rows with
  | nil =>
      intro store s2 h hu
      simp only [insertAttendanceRows, Option.some.injEq] at h
      exact h ▸ hu
  | cons r rs ih =>
      intro store s2 h hu
      simp only [insertAttendanceRows] at h
      cases hins : insertAttendanceRow store r with
      | none => rw [hins] at h; exact Option.noConfusion h
      | some st1 =>
          rw [hins] at h
          obtain ⟨heq, _, hconf⟩ := insertAttendanceRow_spec store r st1 hins
          refine ih st1 s2 h ?_
          rw [heq]
          refine List.pairwise_append.mpr ⟨hu, List.pairwise_singleton _ _, ?_⟩
          intro a ha b hb
          have hb2 : b = r := by simpa using hb
          exact hb2 ▸ hconf a ha

theorem uniqKeys_filter_le_one (l : List AttendanceRow) (sid mid : Nat)
    (hp : uniqKeys l) :
    (l.filter (fun x =>
      decide (x.session_id = sid) && decide (x.member_id = some mid))).length ≤ 1 := by
  induction l with
  | nil => simp
  | cons a l ih =>
      rcases List.pairwise_cons.mp hp with ⟨ha, hl⟩
      simp only [List.filter_cons]
      by_cases hpa : (decide (a.session_id = sid) && decide (a.member_id = some mid)) = true
      · rw [if_pos hpa]
        have hnil : (l.filter (fun x =>
            decide (x.session_id = sid) && decide (x.member_id = some mid))) = [] := by
          rw [List.filter_eq_nil_iff]
          intro x hx hpx
          simp only [Bool.and_eq_true, decide_eq_true_eq] at hpa hpx
          have hcx : rowConflict a x = true := by
            simp [rowConflict, hpa.1, hpa.2, hpx.1, hpx.2]
          rw [ha x hx] at hcx
          exact Bool.noConfusion hcx
        simp [hnil]
      · rw [if_neg hpa]
        exact ih hl

/-- Claim C9: after a successful attendance commit into a store that holds no
rows for the session and satisfies the schema key constraint, every row of
that session carries a non-null member_id (unresolved AttendanceRecords are
skipped by the writer, and a null member would violate NOT NULL), and the
session holds at most one attendance row per member
(UNIQUE(session_id, member_id)). -/
theorem committed_attendance_resolved_and_unique
    (store store2 : List AttendanceRow) (sid : Nat) (records : List AttendanceRecord)
    (hw : writeAttendance store sid records = some store2)
    (hfresh : ∀ x ∈ store, x.session_id ≠ sid)
    (hstore : uniqKeys store) :
    (∀ x ∈ store2, x.session_id = sid → x.member_id ≠ none) ∧
    ∀ mid : Nat,
      (store2.filter (fun x =>
        decide (x.session_id = sid) && decide (x.member_id = some mid))).length ≤ 1 := by
  constructor
  · intro x hx hsid
    rcases insertAttendanceRows_mem (attendanceRows sid records) store store2 hw x hx with
      hx1 | hx1
    · exact absurd hsid (hfresh x hx1)
    · rcases List.mem_filterMap.mp hx1 with ⟨rec, _, hrec⟩
      cases hm : rec.matched_member_id with
      | none => rw [hm] at hrec; exact Option.noConfusion hrec
      | some m =>
          rw [hm] at hrec
          have : x.member_id = some m := by
            have hx2 : x = ⟨sid, some m, rec.status, rec.notes⟩ := by
              simpa using hrec.symm
            rw [hx2]
          rw [this]
          exact Option.noConfusion
  · intro mid
    exact uniqKeys_filter_le_one store2 sid mid
      (insertAttendanceRows_uniq (attendanceRows sid records) store store2 hw hstore)

/-- A concrete resolved attendance record. -/
def recResolved : AttendanceRecord :=
  { extracted_name := "bob", status := .present, notes := none,
    matched_member_id := some 3, confidence_score := 90, needs_manual_review := false }

/-- The attendance row produced by the witness commit. -/
def rowBob : AttendanceRow :=
  { session_id := 1, member_id := some 3, status := .present, notes := none }

/-- Witness for claim C9 at a concrete commit: one resolved record is written,
the unresolved one is skipped, and the written row has a member. -/
theorem committed_attendance_resolved_and_unique_witness :
    writeAttendance [] 1 [recResolved, recLowConf] = some [rowBob] ∧
    (∀ x ∈ [rowBob], x.session_id = 1 → x.member_id ≠ none) :=
  ⟨by decide,
   (committed_attendance_resolved_and_unique [] [rowBob]
      1 [recResolved, recLowConf] (by decide) (by decide) List.Pairwise.nil).1⟩

/-- One relational write of a commit, tagged by target table, following the
tables of the SQL schema that the save-extractions call feeds. -/
inductive TableRow
  | attendanceRow (row : AttendanceRow)
  | goalRow (session_id member_id : Nat) (goal : String) (is_vague : Bool)
  | challengeRow (session_id member_id : Nat) (description category : String)
  | strategyRow (session_id member_id challengeIdx : Nat) (suggested_by : Option Nat)
      (summary tag : String)
  | stuckRow (session_id member_id : Nat) (classification stuck_summary : String)
      (exact_quotes : List String) (next_step : String)
  | marketingRow (session_id member_id : Nat) (stage activity : String) (quantity : Nat)
      (is_win : Bool) (contract_type : Option String) (revenue : Option Nat)
  | outcomeRow (session_id member_id activityIdx : Nat) (meetings proposals clients : Nat)
      (notes : String)
  | sentimentRow (session_id : Nat) (score : Nat) (rationale dominant_emotion : String)
      (confidence : Nat)
  | statementRow (session_id member_id : Nat) (emotions exact_quotes : List String)
      (is_negative : Bool)
  deriving DecidableEq

/-- Modelled from the spec: goal rows of a commit; a goal whose owner name is
unresolved by the finalized draft's lookup is excluded from the transaction. -/
def goalRows (lookup : String → Option Nat) (sid : Nat) (g : GoalsResult) :
    List TableRow :=
  g.goals.filterMap (fun goal =>
    (lookup goal.name).map (fun mid =>
      TableRow.goalRow sid mid goal.quantifiable_goal goal.is_vague))

/-- Modelled from the spec: challenge rows together with their strategy rows;
a strategy's suggested_by is nullable and left null when its suggester is
unresolved, while an unresolved challenge owner excludes that person's rows. -/
def challengeRows (lookup : String → Option Nat) (sid : Nat) (c : ChallengesResult) :
    List TableRow :=
  c.challenges.flatMap (fun ind =>
    match lookup ind.name with
    | none => []
    | some mid =>
        ind.challenges.enum.flatMap (fun p =>
          TableRow.challengeRow sid mid p.2.challenge p.2.category ::
            p.2.strategies.map (fun st =>
              TableRow.strategyRow sid mid p.1 (st.name.bind lookup) st.summary st.tag)))

/-- Modelled from the spec: marketing activity rows each paired with their
outcome row; rows of an unresolved owner are excluded. -/
def marketingRows (lookup : String → Option Nat) (sid : Nat) (m : MarketingResult) :
    List TableRow :=
  m.activities.flatMap (fun ind =>
    match ind.name.bind lookup with
    | none => []
    | some mid =>
        ind.activities.enum.flatMap (fun p =>
          [TableRow.marketingRow sid mid p.2.stage p.2.activity p.2.quanitity
             p.2.is_win p.2.contract_type p.2.revenue,
           TableRow.outcomeRow sid mid p.1 p.2.outcome.no_of_meetings
             p.2.outcome.no_of_proposals p.2.outcome.no_of_clients p.2.outcome.notes]))

/-- Modelled from the spec: stuck-detection rows; unresolved owners are
excluded. -/
def stuckRows (lookup : String → Option Nat) (sid : Nat) (s : StuckResult) :
    List TableRow :=
  s.detections.filterMap (fun d =>
    (lookup d.name).map (fun mid =>
      TableRow.stuckRow sid mid d.classification d.stuck_summary d.exact_quotes
        d.potential_next_step))

/-- Modelled from the spec: one sentiment row for the session together with
its per-member statement rows; statements of unresolved speakers are
excluded. -/
def sentimentRows (lookup : String → Option Nat) (sid : Nat) (s : SessionSentiment) :
    List TableRow :=
  TableRow.sentimentRow sid s.sentiment_score s.rationale s.dominant_emotion
      s.confidence_score ::
    s.representative_quotes.filterMap (fun q =>
      (lookup q.name).map (fun mid =>
        TableRow.statementRow sid mid q.emotion q.exact_quotes q.is_negative))

/-- Modelled from the spec: every relational write of one commit of a
finalized draft, across the attendance, goals, challenges with strategies,
marketing activities with outcomes, stucks and sentiment with statements
tables. -/
def rowsOfDraft (lookup : String → Option Nat) (sid : Nat) (er : ExtractionResults) :
    List TableRow :=
  (attendanceRows sid er.attendance).map TableRow.attendanceRow ++
    goalRows lookup sid er.goals ++
    challengeRows lookup sid er.challenges ++
    marketingRows lookup sid er.marketing_activities ++
    stuckRows lookup sid er.stuck_detections ++
    sentimentRows lookup sid er.sentiment

/-- Modelled from the spec: sequential application of a commit's writes to
the store; the fail oracle says whether the k-th write fails (store
unavailable or constraint violation), in which case the transaction cannot
complete. -/
def applyWrites (fail : Nat → Bool) :
    List TableRow → Nat → List TableRow → Option (List TableRow)
  | [], _, store => some store
  | r :: rs, k, store =>
      if fail k then none else applyWrites fail rs (k + 1) (store ++ [r])

/-- Modelled from the spec: the commit executes as a single atomic
transaction; when the transaction cannot complete, every write of the commit
rolls back and the store is left as it was. -/
def commitTx (fail : Nat → Bool) (store rows : List TableRow) : List TableRow :=
  match applyWrites fail rows 0 store with
  | some s2 => s2
  | none => store

theorem applyWrites_dichotomy (fail : Nat → Bool) :
    ∀ (rows : List TableRow) (k : Nat) (store : List TableRow),
      applyWrites fail rows k store = none ∨
      applyWrites fail rows k store = some (store ++ rows)
  | [], _, store => Or.inr (by simp [applyWrites])
  | r :: rs, k, store => by
      by_cases h : fail k = true
      · exact Or.inl (by simp [applyWrites, h])
      · rcases applyWrites_dichotomy fail rs (k + 1) (store ++ [r]) with h1 | h1
        · exact Or.inl (by simp [applyWrites, h, h1])
        · refine Or.inr ?_
          simp [applyWrites, h, h1]

/-- Claim C2: the commit of a finalized draft is all-or-nothing: whatever the
failure behaviour of the store, the state after the commit either equals the
prior store (the transaction could not complete and no row written by the
commit remains) or equals the prior store extended by every relational write
of the commit. -/
theorem commit_all_or_nothing (fail : Nat → Bool) (store : List TableRow)
    (lookup : String → Option Nat) (sid : Nat) (er : ExtractionResults) :
    commitTx fail store (rowsOfDraft lookup sid er) = store ∨
    commitTx fail store (rowsOfDraft lookup sid er) =
      store ++ rowsOfDraft lookup sid er := by
  rcases applyWrites_dichotomy fail (rowsOfDraft lookup sid er) 0 store with h | h
  · exact Or.inl (by simp [commitTx, h])
  · exact Or.inr (by simp [commitTx, h])

end OwnersUp
